import Mathlib

/-!
Verification development for the AirDrop-Frontend `WebRTCService`
(`src/services/WebRTCService.js`): the chunked file-transfer codec
(`sendFile` frame construction, the binary branch of
`handleDataChannelMessage`, `reassembleFile`) and the signaling /
lifecycle state machine (`handleOffer`, `handleAnswer`,
`handleIceCandidate`, `applyPendingRemoteDescription`,
`applyPendingIceCandidates`, `closePeerConnection`, the socket
`onclose` handler, `disconnect`).

Byte buffers (`ArrayBuffer` / `Uint8Array`) are modelled as `List Nat`,
strings by their UTF-8 byte lists (every identifier the code puts on
the wire is ASCII, where bytes and characters coincide).  JavaScript
`ArrayBuffer.slice(a, b)` clamps both indices to the buffer length and
never reads out of bounds; `DataView` reads throw a `RangeError` when
the requested window does not fit, which we model by returning `none`.
-/

namespace AirDrop

/-- Little-endian digit value of a byte list, as read by `DataView`
with `littleEndian = true`. -/
def bytesToNatLE : List Nat → Nat
  | [] => 0
  | b :: bs => b + 256 * bytesToNatLE bs

/-- The four little-endian bytes written by `DataView.setUint32(_, n, true)`. -/
def u32le (n : Nat) : List Nat :=
  [n % 256, n / 256 % 256, n / 65536 % 256, n / 16777216 % 256]

/-- The eight little-endian bytes written by `DataView.setBigUint64(_, n, true)`. -/
def u64le (n : Nat) : List Nat :=
  [n % 256, n / 256 % 256, n / 65536 % 256, n / 16777216 % 256,
   n / 4294967296 % 256, n / 1099511627776 % 256,
   n / 281474976710656 % 256, n / 72057594037927936 % 256]

/-- Models `DataView.getUint32(o, true)` on buffer `s`: reads the four bytes at
offset `o`, throwing (modelled as `none`) when they do not fit. -/
def readU32 (s : List Nat) (o : Nat) : Option Nat :=
  let bytes := (s.drop o).take 4
  if bytes.length = 4 then some (bytesToNatLE bytes) else none

/-- Models `DataView.getBigUint64(o, true)` on buffer `s`. -/
def readU64 (s : List Nat) (o : Nat) : Option Nat :=
  let bytes := (s.drop o).take 8
  if bytes.length = 8 then some (bytesToNatLE bytes) else none

/-- JavaScript `ArrayBuffer.slice(a, b)` (for `a ≤ b`): both endpoints
clamp to the buffer length. -/
def jsSlice (l : List Nat) (a b : Nat) : List Nat :=
  (l.take b).drop a

/-- Models `sendFile`: `const chunkSize = 64 * 1024`. -/
def chunkSize : Nat := 64 * 1024

/-- Models `sendFile`: `const totalChunks = Math.ceil(fileBuffer.byteLength / chunkSize)`. -/
def totalChunksOf (len : Nat) : Nat :=
  (len + chunkSize - 1) / chunkSize

/-- Models `sendFile`: `new TextEncoder().encode(fileId.padEnd(16, "\0")).slice(0, 16)` —
the 16 transfer-id bytes written at the head of every frame. -/
def fileIdBytes (fileId : List Nat) : List Nat :=
  (fileId ++ List.replicate (16 - fileId.length) 0).take 16

/-- One binary chunk frame exactly as `sendFile` lays it out:
16-byte id, u32 currentChunk at 16, u32 totalChunks at 20,
u32 fileNameLength at 24, fileName at 28, then u32 fileTypeLength,
fileType, u64 fileSize, payload. -/
def chunkFrame (idb : List Nat) (currentChunk totalChunks : Nat)
    (fileName fileType : List Nat) (fileSize : Nat) (chunk : List Nat) :
    List Nat :=
  idb ++ u32le currentChunk ++ u32le totalChunks ++ u32le fileName.length ++
    fileName ++ u32le fileType.length ++ fileType ++ u64le fileSize ++ chunk

/-- Models `sendFile`'s chunk slice for index `i`:
`fileBuffer.slice(i * chunkSize, Math.min(i * chunkSize + chunkSize, byteLength))`. -/
def sendFilePayload (B : List Nat) (i : Nat) : List Nat :=
  jsSlice B (i * chunkSize) (min (i * chunkSize + chunkSize) B.length)

/-- The ordered sequence of binary frames `sendFile` emits for buffer `B`
(`file.size` equals `fileBuffer.byteLength` for a real file, so the
declared size field is `B.length`). -/
def sendFileFrames (fileId fileName fileType : List Nat) (B : List Nat) :
    List (List Nat) :=
  (List.range (totalChunksOf B.length)).map fun i =>
    chunkFrame (fileIdBytes fileId) i (totalChunksOf B.length)
      fileName fileType B.length (sendFilePayload B i)

/-- The chunk record pushed into `this.fileChunks[fileId]` by the binary
branch of `handleDataChannelMessage` (`type` is spelt `ftype`). -/
structure ChunkRecord where
  id : List Nat
  name : List Nat
  ftype : List Nat
  size : Nat
  totalChunks : Nat
  currentChunk : Nat
  data : List Nat
deriving DecidableEq

/-- The binary branch of `handleDataChannelMessage`: parse one frame.
Any `DataView` read falling outside the (clamped) slice throws, which the
surrounding `try`/`catch` turns into a no-op; we model that as `none`. -/
def decodeChunk (data : List Nat) : Option ChunkRecord :=
  match readU32 (jsSlice data 0 28) 16, readU32 (jsSlice data 0 28) 20,
        readU32 (jsSlice data 0 28) 24 with
  | some currentChunk, some totalChunks, some fileNameLengthBytes =>
    match readU32 (jsSlice data (28 + fileNameLengthBytes)
        (28 + fileNameLengthBytes + 4)) 0 with
    | some fileTypeLengthBytes =>
      match readU64 (jsSlice data
          (28 + fileNameLengthBytes + 4 + fileTypeLengthBytes)
          (28 + fileNameLengthBytes + 4 + fileTypeLengthBytes + 8)) 0 with
      | some fileSize =>
        some { id := jsSlice data 0 16,
               name := jsSlice data 28 (28 + fileNameLengthBytes),
               ftype := jsSlice data (28 + fileNameLengthBytes + 4)
                 (28 + fileNameLengthBytes + 4 + fileTypeLengthBytes),
               size := fileSize,
               totalChunks := totalChunks,
               currentChunk := currentChunk,
               data := data.drop
                 (28 + fileNameLengthBytes + 4 + fileTypeLengthBytes + 8) }
      | none => none
    | none => none
  | _, _, _ => none

/-- Keys of `this.fileChunks` (the decoded transfer-id text). -/
abbrev Key := List Nat

/-- Models `this.fileChunks`: a plain-object map from transfer id to the list of
chunk records pushed so far, in arrival order. -/
abbrev Store := List (Key × List ChunkRecord)

/-- Property read `this.fileChunks[k]` (`none` models `undefined`). -/
def lookupStore : Store → Key → Option (List ChunkRecord)
  | [], _ => none
  | (k, v) :: rest, key => if k = key then some v else lookupStore rest key

/-- Property write `this.fileChunks[k] = v`. -/
def insertStore : Store → Key → List ChunkRecord → Store
  | [], key, v => [(key, v)]
  | (k, w) :: rest, key, v =>
    if k = key then (key, v) :: rest else (k, w) :: insertStore rest key v

/-- Models `delete this.fileChunks[k]`. -/
def eraseStore : Store → Key → Store
  | [], _ => []
  | (k, w) :: rest, key =>
    if k = key then eraseStore rest key else (k, w) :: eraseStore rest key

/-- Models `reassembleFile`'s comparator `(a, b) => a.currentChunk - b.currentChunk`. -/
def chunkLE (a b : ChunkRecord) : Prop :=
  a.currentChunk ≤ b.currentChunk

instance : DecidableRel chunkLE := fun a b => Nat.decLe a.currentChunk b.currentChunk

instance : IsTotal ChunkRecord chunkLE := ⟨fun a b => Nat.le_total a.currentChunk b.currentChunk⟩

instance : IsTrans ChunkRecord chunkLE := ⟨fun _ _ _ => Nat.le_trans⟩

/-- Models `fileBuffer.set(src, off)`: overwrite `src.length` bytes at `off`.
Only used under the `set` precondition `off + src.length ≤ buf.length`. -/
def overlayAt (buf : List Nat) (off : Nat) (src : List Nat) : List Nat :=
  buf.take off ++ src ++ buf.drop (off + src.length)

/-- Models `reassembleFile`'s copy loop: write each chunk's payload at the running
offset.  `TypedArray.set` throws a `RangeError` when the source does not
fit, which aborts the whole reassembly (modelled as `none`). -/
def copyChunks : List Nat → Nat → List ChunkRecord → Option (List Nat)
  | buf, _, [] => some buf
  | buf, off, c :: cs =>
    if off + c.data.length ≤ buf.length then
      copyChunks (overlayAt buf off c.data) (off + c.data.length) cs
    else none

/-- The chunk-list core of `reassembleFile`: throw on an empty record list
(`No chunks found`), sort in place by `currentChunk`, allocate a zeroed
buffer of `chunks[0].size` (read after the sort) and copy each payload at
the cumulative offset.  Returns the reassembled byte buffer. -/
def reassembleChunks (chunks : List ChunkRecord) : Option (List Nat) :=
  match chunks with
  | [] => none
  | _ :: _ =>
    match List.insertionSort chunkLE chunks with
    | [] => none
    | c :: cs => copyChunks (List.replicate c.size 0) 0 (c :: cs)

/-- Models `reassembleFile(fileId, ...)` at the store level: look the records up
under `fileId`, reassemble, and on success only delete the entry
(`delete this.fileChunks[fileId]` runs after the callbacks; a throw is
caught before reaching it, leaving the store unchanged). -/
def reassembleFile (st : Store) (fileId : Key) : Store × Option (List Nat) :=
  match lookupStore st fileId with
  | none => (st, none)
  | some chunks =>
    match reassembleChunks chunks with
    | none => (st, none)
    | some content => (eraseStore st fileId, some content)

/-- Models `handleDataChannelMessage`, `file-start` control branch:
`this.fileChunks[message.fileId] = []`. -/
def handleFileStart (st : Store) (fileId : Key) : Store :=
  insertStore st fileId []

/-- Models `handleDataChannelMessage`, `file-end` control branch: invoke
`reassembleFile` on the message's `fileId` unconditionally. -/
def handleFileEnd (st : Store) (fileId : Key) : Store × Option (List Nat) :=
  reassembleFile st fileId

/-- Models `handleDataChannelMessage`, binary branch: decode the frame (a parse
throw is caught and drops the frame), push the record under its decoded
id, and reassemble as soon as the pushed count equals the frame's
`totalChunks`. -/
def handleBinaryMessage (st : Store) (data : List Nat) :
    Store × Option (List Nat) :=
  match decodeChunk data with
  | none => (st, none)
  | some r =>
    let chunks := (lookupStore st r.id).getD [] ++ [r]
    let st' := insertStore st r.id chunks
    if chunks.length = r.totalChunks then reassembleFile st' r.id
    else (st', none)

/-! ## Per-peer ICE candidate buffering (`handleIceCandidate`,
`applyPendingIceCandidates`) -/

/-- The slice of per-peer state the ICE-candidate path touches:
whether `peerConnection.currentRemoteDescription` is non-null, the
`pendingIceCandidates[peerId]` queue, and the trace of
`addIceCandidate` calls in invocation order. -/
structure IceState where
  hasRemoteDescription : Bool
  pendingIceCandidates : List Nat
  appliedIceCandidates : List Nat
deriving DecidableEq

/-- Models `handleIceCandidate`: buffer when no remote description is applied
yet, otherwise `addIceCandidate` directly. -/
def handleIceCandidate (s : IceState) (c : Nat) : IceState :=
  if s.hasRemoteDescription then
    { s with appliedIceCandidates := s.appliedIceCandidates ++ [c] }
  else
    { s with pendingIceCandidates := s.pendingIceCandidates ++ [c] }

/-- Models `applyPendingIceCandidates`: early-return on an empty queue, else
apply every buffered candidate in order (`forEach`) and reset the queue
to `[]`. -/
def applyPendingIceCandidates (s : IceState) : IceState :=
  if s.pendingIceCandidates.isEmpty then s
  else
    { s with
      appliedIceCandidates := s.appliedIceCandidates ++ s.pendingIceCandidates,
      pendingIceCandidates := [] }

/-- A successful `setRemoteDescription` followed by the
`applyPendingIceCandidates` call every handler performs right after it. -/
def applyRemoteDescription (s : IceState) : IceState :=
  applyPendingIceCandidates { s with hasRemoteDescription := true }

/-! ## Pending remote description queue (`handleOffer`, `handleAnswer`,
`applyPendingRemoteDescription`) -/

/-- Models `RTCPeerConnection.signalingState` values this component branches on. -/
inductive SignalingState where
  | stable
  | haveLocalOffer
  | haveRemoteOffer
deriving DecidableEq

inductive SdpType where
  | offer
  | answer
deriving DecidableEq

/-- A session description: its SDP `type` plus an opaque payload. -/
structure Sdp where
  sdpType : SdpType
  val : Nat
deriving DecidableEq

/-- The slice of per-peer state the description path touches:
the signaling state, the single `pendingRemoteDescriptions[peerId]`
slot, the trace of `setRemoteDescription` calls, and the number of
answers relayed through the signaling channel. -/
structure DescState where
  signalingState : SignalingState
  pendingRemoteDescription : Option Sdp
  appliedRemoteDescriptions : List Sdp
  sentAnswers : Nat
deriving DecidableEq

/-- Models `handleOffer`: in `stable` state apply the offer, create and set a
local answer (signaling state returns to `stable`) and relay the answer;
otherwise store the offer as the peer's single pending description. -/
def handleOffer (s : DescState) (v : Nat) : DescState :=
  if s.signalingState = .stable then
    { s with
      appliedRemoteDescriptions :=
        s.appliedRemoteDescriptions ++ [⟨.offer, v⟩],
      sentAnswers := s.sentAnswers + 1,
      signalingState := .stable }
  else
    { s with pendingRemoteDescription := some ⟨.offer, v⟩ }

/-- Models `handleAnswer`: in `have-local-offer` state apply the answer
(signaling state becomes `stable`); otherwise store it as the single
pending description. -/
def handleAnswer (s : DescState) (v : Nat) : DescState :=
  if s.signalingState = .haveLocalOffer then
    { s with
      appliedRemoteDescriptions :=
        s.appliedRemoteDescriptions ++ [⟨.answer, v⟩],
      signalingState := .stable }
  else
    { s with pendingRemoteDescription := some ⟨.answer, v⟩ }

/-- Models `applyPendingRemoteDescription`: no-op without a pending description;
otherwise apply it, clear the slot, and when it was an offer, create and
set a local answer and relay it. -/
def applyPendingRemoteDescription (s : DescState) : DescState :=
  match s.pendingRemoteDescription with
  | none => s
  | some d =>
    let s' := { s with
      appliedRemoteDescriptions := s.appliedRemoteDescriptions ++ [d],
      pendingRemoteDescription := none }
    match d.sdpType with
    | .offer =>
      { s' with sentAnswers := s'.sentAnswers + 1, signalingState := .stable }
    | .answer => s'

/-! ## Service-level teardown (`closePeerConnection`, socket `onclose`,
`peer-left`, `disconnect`) -/

/-- The `WebRTCService` fields teardown touches.  The per-peer maps are
represented by their key lists; `disconnectedCallbacks` is the trace of
`onPeerDisconnected` invocations. -/
structure ServiceState where
  socket : Bool
  roomId : Option Nat
  peerId : Option Nat
  peerConnections : List Nat
  dataChannels : List Nat
  pendingRemoteDescriptionKeys : List Nat
  pendingIceCandidateKeys : List Nat
  fileChunks : Store
  disconnectedCallbacks : List Nat
deriving DecidableEq

/-- Models `closePeerConnection(peerId)`: close and delete the data channel and
connection, and delete the peer's pending descriptions and candidates.
It invokes no callback. -/
def closePeerConnection (s : ServiceState) (pid : Nat) : ServiceState :=
  { s with
    dataChannels := s.dataChannels.filter (fun x => x ≠ pid),
    peerConnections := s.peerConnections.filter (fun x => x ≠ pid),
    pendingRemoteDescriptionKeys :=
      s.pendingRemoteDescriptionKeys.filter (fun x => x ≠ pid),
    pendingIceCandidateKeys :=
      s.pendingIceCandidateKeys.filter (fun x => x ≠ pid) }

/-- The `socket.onclose` handler: `Object.keys(this.peerConnections)`
(a snapshot) is iterated with `closePeerConnection`.  Nothing else runs. -/
def socketOnClose (s : ServiceState) : ServiceState :=
  s.peerConnections.foldl closePeerConnection s

/-- The `peer-left` signaling branch: `closePeerConnection` then
`onPeerDisconnected` — the only place that callback fires. -/
def handlePeerLeft (s : ServiceState) (pid : Nat) : ServiceState :=
  let s' := closePeerConnection s pid
  { s' with disconnectedCallbacks := s'.disconnectedCallbacks ++ [pid] }

/-- Models `disconnect()`: close every peer connection, close and null the
socket, and reset `roomId`, `peerId`, `pendingRemoteDescriptions` and
`pendingIceCandidates`.  `this.fileChunks` is not touched. -/
def disconnect (s : ServiceState) : ServiceState :=
  let s' := s.peerConnections.foldl closePeerConnection s
  { s' with
    socket := false,
    roomId := none,
    peerId := none,
    pendingRemoteDescriptionKeys := [],
    pendingIceCandidateKeys := [] }

/-! ## Byte-level read/write lemmas -/

lemma length_u32le (n : Nat) : (u32le n).length = 4 := by
  simp [u32le]

lemma length_u64le (n : Nat) : (u64le n).length = 8 := by
  simp [u64le]

lemma length_fileIdBytes (fid : List Nat) : (fileIdBytes fid).length = 16 := by
  simp [fileIdBytes]
  omega

lemma readU32_append (n : Nat) (rest : List Nat) (h : n < 4294967296) :
    readU32 (u32le n ++ rest) 0 = some n := by
  have hl : (u32le n ++ rest).take 4 = u32le n := by
    rw [show (4 : Nat) = (u32le n).length from (length_u32le n).symm, List.take_left]
  simp only [readU32, List.drop_zero, hl, length_u32le, if_pos]
  simp only [u32le, bytesToNatLE, Option.some.injEq]
  omega

lemma readU64_append (n : Nat) (rest : List Nat) (h : n < 18446744073709551616) :
    readU64 (u64le n ++ rest) 0 = some n := by
  have hl : (u64le n ++ rest).take 8 = u64le n := by
    rw [show (8 : Nat) = (u64le n).length from (length_u64le n).symm, List.take_left]
  simp only [readU64, List.drop_zero, hl, length_u64le, if_pos]
  simp only [u64le, bytesToNatLE, Option.some.injEq]
  omega

lemma readU32_take (s : List Nat) (k o : Nat) (h : o + 4 ≤ k) :
    readU32 (s.take k) o = readU32 (s.drop o) 0 := by
  have h1 : (s.take k).drop o = (s.drop o).take (k - o) := by
    rw [List.drop_take]
  simp only [readU32, h1, List.drop_zero, List.take_take]
  rw [min_eq_left (by omega)]

lemma readU32_jsSlice (s : List Nat) (a : Nat) :
    readU32 (jsSlice s a (a + 4)) 0 = readU32 (s.drop a) 0 := by
  have h1 : jsSlice s a (a + 4) = (s.drop a).take 4 := by
    rw [jsSlice, List.drop_take, Nat.add_sub_cancel_left]
  simp only [readU32, h1, List.drop_zero, List.take_take, Nat.min_self]

lemma readU64_jsSlice (s : List Nat) (a : Nat) :
    readU64 (jsSlice s a (a + 8)) 0 = readU64 (s.drop a) 0 := by
  have h1 : jsSlice s a (a + 8) = (s.drop a).take 8 := by
    rw [jsSlice, List.drop_take, Nat.add_sub_cancel_left]
  simp only [readU64, h1, List.drop_zero, List.take_take, Nat.min_self]

/-- Decoding inverts encoding: the binary branch of
`handleDataChannelMessage` recovers every field `sendFile` wrote,
provided the declared length fields fit in their wire width. -/
lemma decodeChunk_chunkFrame (idb nm mt pl : List Nat) (i t sz : Nat)
    (hid : idb.length = 16) (hi : i < 4294967296) (ht : t < 4294967296)
    (hn : nm.length < 4294967296) (hm : mt.length < 4294967296)
    (hs : sz < 18446744073709551616) :
    decodeChunk (chunkFrame idb i t nm mt sz pl) =
      some { id := idb, name := nm, ftype := mt, size := sz,
             totalChunks := t, currentChunk := i, data := pl } := by
  set F := chunkFrame idb i t nm mt sz pl with hF
  have hFr : F = idb ++ (u32le i ++ (u32le t ++ (u32le nm.length ++ (nm ++
      (u32le mt.length ++ (mt ++ (u64le sz ++ pl))))))) := by
    simp [hF, chunkFrame, List.append_assoc]
  have d16 : F.drop 16 =
      u32le i ++ (u32le t ++ (u32le nm.length ++ (nm ++ (u32le mt.length ++
        (mt ++ (u64le sz ++ pl)))))) := by
    rw [hFr, ← hid, List.drop_left]
  have d20 : F.drop 20 =
      u32le t ++ (u32le nm.length ++ (nm ++ (u32le mt.length ++
        (mt ++ (u64le sz ++ pl))))) := by
    rw [show (20 : Nat) = 16 + 4 from rfl, ← List.drop_drop, d16,
      show (4 : Nat) = (u32le i).length from (length_u32le i).symm, List.drop_left]
  have d24 : F.drop 24 =
      u32le nm.length ++ (nm ++ (u32le mt.length ++
        (mt ++ (u64le sz ++ pl)))) := by
    rw [show (24 : Nat) = 20 + 4 from rfl, ← List.drop_drop, d20,
      show (4 : Nat) = (u32le t).length from (length_u32le t).symm, List.drop_left]
  have d28 : F.drop 28 =
      nm ++ (u32le mt.length ++ (mt ++ (u64le sz ++ pl))) := by
    rw [show (28 : Nat) = 24 + 4 from rfl, ← List.drop_drop, d24,
      show (4 : Nat) = (u32le nm.length).length from (length_u32le _).symm,
      List.drop_left]
  have dA : F.drop (28 + nm.length) =
      u32le mt.length ++ (mt ++ (u64le sz ++ pl)) := by
    rw [← List.drop_drop, d28, List.drop_left]
  have dB : F.drop (28 + nm.length + 4) = mt ++ (u64le sz ++ pl) := by
    rw [← List.drop_drop, dA,
      show (4 : Nat) = (u32le mt.length).length from (length_u32le _).symm,
      List.drop_left]
  have dC : F.drop (28 + nm.length + 4 + mt.length) = u64le sz ++ pl := by
    rw [← List.drop_drop, dB, List.drop_left]
  have dD : F.drop (28 + nm.length + 4 + mt.length + 8) = pl := by
    rw [← List.drop_drop, dC,
      show (8 : Nat) = (u64le sz).length from (length_u64le sz).symm,
      List.drop_left]
  have hsl : jsSlice F 0 28 = F.take 28 := by
    simp [jsSlice]
  have r16 : readU32 (jsSlice F 0 28) 16 = some i := by
    rw [hsl, readU32_take F 28 16 (by omega), d16, readU32_append i _ hi]
  have r20 : readU32 (jsSlice F 0 28) 20 = some t := by
    rw [hsl, readU32_take F 28 20 (by omega), d20, readU32_append t _ ht]
  have r24 : readU32 (jsSlice F 0 28) 24 = some nm.length := by
    rw [hsl, readU32_take F 28 24 (by omega), d24, readU32_append _ _ hn]
  have rM : readU32 (jsSlice F (28 + nm.length) (28 + nm.length + 4)) 0 =
      some mt.length := by
    rw [readU32_jsSlice, dA, readU32_append _ _ hm]
  have rS : readU64 (jsSlice F (28 + nm.length + 4 + mt.length)
      (28 + nm.length + 4 + mt.length + 8)) 0 = some sz := by
    rw [readU64_jsSlice, dC, readU64_append _ _ hs]
  have fid' : jsSlice F 0 16 = idb := by
    rw [jsSlice, List.drop_zero, hFr, ← hid, List.take_left]
  have fnm : jsSlice F 28 (28 + nm.length) = nm := by
    rw [jsSlice, List.drop_take, Nat.add_sub_cancel_left, d28, List.take_left]
  have fmt : jsSlice F (28 + nm.length + 4) (28 + nm.length + 4 + mt.length) =
      mt := by
    rw [jsSlice, List.drop_take, Nat.add_sub_cancel_left, dB, List.take_left]
  rw [decodeChunk, r16, r20, r24]
  simp only [rM, rS, fid', fnm, fmt, dD]

/-! ## Chunk tiling and reassembly-copy lemmas -/

lemma sendFilePayload_eq (B : List Nat) (i : Nat) :
    sendFilePayload B i = (B.drop (i * chunkSize)).take chunkSize := by
  rw [sendFilePayload, jsSlice, List.drop_take]
  refine List.take_eq_take.mpr ?_
  simp only [List.length_drop]
  omega

lemma length_sendFilePayload (B : List Nat) (i : Nat) :
    (sendFilePayload B i).length = min chunkSize (B.length - i * chunkSize) := by
  rw [sendFilePayload_eq]
  simp

/-- Models `sendFile`'s chunk slices tile the whole buffer: concatenated in
index order they reproduce it exactly. -/
lemma flatten_drop_take_chunks (m : Nat) :
    ∀ B : List Nat, B.length ≤ m * chunkSize →
      ((List.range m).map fun i => (B.drop (i * chunkSize)).take chunkSize).flatten
        = B := by
  induction m with
  | zero =>
    intro B h
    have : B = [] := List.eq_nil_of_length_eq_zero (by omega)
    simp [this]
  | succ m ih =>
    intro B h
    rw [List.range_succ_eq_map]
    simp only [List.map_cons, List.map_map, List.flatten]
    have hfun : ((fun i => (B.drop (i * chunkSize)).take chunkSize) ∘ Nat.succ)
        = fun i => ((B.drop chunkSize).drop (i * chunkSize)).take chunkSize := by
      funext i
      simp only [Function.comp_apply, List.drop_drop, Nat.succ_mul,
        Nat.add_comm]
    rw [hfun, ih (B.drop chunkSize)
      (by simp only [List.length_drop]; rw [Nat.succ_mul] at h; omega)]
    simp [List.take_append_drop]

lemma length_overlayAt (buf src : List Nat) (off : Nat)
    (h : off + src.length ≤ buf.length) :
    (overlayAt buf off src).length = buf.length := by
  simp only [overlayAt, List.length_append, List.length_take, List.length_drop]
  omega

/-- The copy loop writes the payloads back to back: starting from any
buffer it returns the prefix before `off`, the concatenated payloads,
then the untouched suffix. -/
lemma copyChunks_eq (cs : List ChunkRecord) :
    ∀ (buf : List Nat) (off : Nat),
      off + ((cs.map fun c => c.data.length).sum) ≤ buf.length →
      copyChunks buf off cs =
        some (buf.take off ++ ((cs.map fun c => c.data).flatten ++
          buf.drop (off + (cs.map fun c => c.data.length).sum))) := by
  induction cs with
  | nil =>
    intro buf off h
    simp [copyChunks, List.take_append_drop]
  | cons c cs ih =>
    intro buf off h
    simp only [List.map_cons, List.sum_cons] at h
    have hc : off + c.data.length ≤ buf.length := by omega
    have hoff : off ≤ buf.length := by omega
    rw [copyChunks, if_pos hc,
      ih _ _ (by rw [length_overlayAt _ _ _ hc]; omega)]
    have hlen : (buf.take off ++ c.data).length = off + c.data.length := by
      simp only [List.length_append, List.length_take]
      omega
    have hov : overlayAt buf off c.data
        = (buf.take off ++ c.data) ++ buf.drop ((buf.take off ++ c.data).length) := by
      rw [overlayAt, hlen]
    have htk : (overlayAt buf off c.data).take (off + c.data.length)
        = buf.take off ++ c.data := by
      rw [hov, ← hlen, List.take_left]
    have hdr : ∀ k, (overlayAt buf off c.data).drop (off + c.data.length + k)
        = buf.drop (off + c.data.length + k) := by
      intro k
      conv_lhs => rw [hov, show off + c.data.length + k
        = (buf.take off ++ c.data).length + k by rw [hlen]]
      rw [List.drop_append, List.drop_drop, hlen]
    rw [htk, hdr]
    simp only [List.map_cons, List.sum_cons, List.flatten_cons, List.append_assoc,
      Nat.add_assoc]

lemma chunkSize_eq : chunkSize = 65536 := by
  norm_num [chunkSize]

lemma totalChunksOf_eq (len : Nat) : totalChunksOf len = (len + 65535) / 65536 := by
  rw [totalChunksOf, chunkSize_eq]
  omega

lemma filterMap_map_of_some {α β γ : Type} (f : β → Option γ) (g : α → β)
    (h' : α → γ) :
    ∀ l : List α, (∀ x ∈ l, f (g x) = some (h' x)) →
      (l.map g).filterMap f = l.map h'
  | [], _ => by simp
  | x :: l, H => by
    simp only [List.map_cons, List.filterMap_cons, H x (List.mem_cons_self x l)]
    rw [filterMap_map_of_some f g h' l fun y hy => H y (List.mem_cons_of_mem x hy)]

/-- The record the receiver's binary branch builds from the `i`-th frame
of a `sendFile` transfer. -/
def receivedRecord (fid nm mt B : List Nat) (i : Nat) : ChunkRecord :=
  { id := fileIdBytes fid, name := nm, ftype := mt, size := B.length,
    totalChunks := totalChunksOf B.length, currentChunk := i,
    data := sendFilePayload B i }

lemma decode_sendFileFrame (fid nm mt B : List Nat) (i : Nat)
    (hn : nm.length < 4294967296) (hm : mt.length < 4294967296)
    (hB : B.length < 4294967296) (hi : i < totalChunksOf B.length) :
    decodeChunk (chunkFrame (fileIdBytes fid) i (totalChunksOf B.length)
        nm mt B.length (sendFilePayload B i)) =
      some (receivedRecord fid nm mt B i) := by
  have hT := totalChunksOf_eq B.length
  exact decodeChunk_chunkFrame _ _ _ _ _ _ _ (length_fileIdBytes fid)
    (by omega) (by omega) hn hm (by omega)

lemma decode_sendFileFrames (fid nm mt B : List Nat)
    (hn : nm.length < 4294967296) (hm : mt.length < 4294967296)
    (hB : B.length < 4294967296) :
    (sendFileFrames fid nm mt B).filterMap decodeChunk =
      (List.range (totalChunksOf B.length)).map (receivedRecord fid nm mt B) := by
  rw [sendFileFrames]
  exact filterMap_map_of_some _ _ _ _ fun i hi =>
    decode_sendFileFrame fid nm mt B i hn hm hB (List.mem_range.mp hi)

lemma sorted_receivedRecords (fid nm mt B : List Nat) (T : Nat) :
    List.Sorted chunkLE ((List.range T).map (receivedRecord fid nm mt B)) := by
  rw [List.Sorted, List.pairwise_map]
  exact (List.pairwise_lt_range T).imp fun h => Nat.le_of_lt h

lemma flatten_receivedRecords (fid nm mt B : List Nat) :
    ((((List.range (totalChunksOf B.length)).map (receivedRecord fid nm mt B)).map
      fun c => c.data).flatten) = B := by
  rw [List.map_map]
  have : ((fun c : ChunkRecord => c.data) ∘ receivedRecord fid nm mt B)
      = fun i => (B.drop (i * chunkSize)).take chunkSize := by
    funext i
    simp [receivedRecord, sendFilePayload_eq]
  rw [this]
  refine flatten_drop_take_chunks _ B ?_
  rw [totalChunksOf_eq, chunkSize_eq]
  omega

lemma sum_receivedRecords (fid nm mt B : List Nat) :
    ((((List.range (totalChunksOf B.length)).map (receivedRecord fid nm mt B)).map
      fun c => c.data.length).sum) = B.length := by
  have h := congrArg List.length (flatten_receivedRecords fid nm mt B)
  rw [List.length_flatten, List.map_map, List.map_map] at h
  simpa [Function.comp] using h

/-- Reassembling the full ordered record list of one `sendFile` transfer
reproduces the original buffer. -/
lemma reassemble_receivedRecords (fid nm mt B : List Nat) (hB : B ≠ []) :
    reassembleChunks
      ((List.range (totalChunksOf B.length)).map (receivedRecord fid nm mt B))
      = some B := by
  have hT1 : 1 ≤ totalChunksOf B.length := by
    have : B.length ≠ 0 := fun h => hB (List.eq_nil_of_length_eq_zero h)
    rw [totalChunksOf_eq]
    omega
  obtain ⟨m, hm'⟩ : ∃ m, totalChunksOf B.length = m + 1 :=
    ⟨totalChunksOf B.length - 1, by omega⟩
  have hsorted := sorted_receivedRecords fid nm mt B (totalChunksOf B.length)
  have hcons : (List.range (totalChunksOf B.length)).map (receivedRecord fid nm mt B)
      = receivedRecord fid nm mt B 0 ::
        ((List.range m).map (receivedRecord fid nm mt B ∘ Nat.succ)) := by
    rw [hm', List.range_succ_eq_map, List.map_cons, List.map_map]
  rw [hcons] at hsorted ⊢
  rw [reassembleChunks, List.Sorted.insertionSort_eq hsorted]
  show copyChunks (List.replicate (receivedRecord fid nm mt B 0).size 0) 0
    (receivedRecord fid nm mt B 0 ::
      (List.range m).map (receivedRecord fid nm mt B ∘ Nat.succ)) = some B
  have hsz : (receivedRecord fid nm mt B 0).size = B.length := rfl
  rw [hsz, ← hcons,
    copyChunks_eq _ _ _ (by rw [sum_receivedRecords, List.length_replicate]; omega)]
  rw [sum_receivedRecords, flatten_receivedRecords]
  simp [List.drop_eq_nil_of_le]

/-! ## Malformed-frame lemmas -/

lemma readU32_none (s : List Nat) (o : Nat) (h : s.length < o + 4) :
    readU32 s o = none := by
  simp only [readU32, List.length_take, List.length_drop]
  rw [if_neg (by omega)]

lemma readU64_none (s : List Nat) (o : Nat) (h : s.length < o + 8) :
    readU64 s o = none := by
  simp only [readU64, List.length_take, List.length_drop]
  rw [if_neg (by omega)]

lemma jsSlice_zero (s : List Nat) (k : Nat) : jsSlice s 0 k = s.take k := by
  simp [jsSlice]

/-! ## Store lemmas -/

lemma lookupStore_eraseStore (st : Store) (k : Key) :
    lookupStore (eraseStore st k) k = none := by
  induction st with
  | nil => rfl
  | cons a rest ih =>
    rw [eraseStore]
    by_cases h : a.1 = k
    · rw [if_pos h]
      exact ih
    · rw [if_neg h, lookupStore, if_neg h]
      exact ih

/-! ## Sort-invariance lemmas -/

/-- Strict version of the reassembly comparator. -/
def chunkLT (a b : ChunkRecord) : Prop :=
  a.currentChunk < b.currentChunk

instance : IsAntisymm ChunkRecord chunkLT :=
  ⟨fun _ _ h1 h2 => (Nat.lt_asymm h1 h2).elim⟩

lemma sorted_chunkLT_of_nodup (l : List ChunkRecord)
    (hs : List.Sorted chunkLE l)
    (hnd : (l.map fun c => c.currentChunk).Nodup) :
    List.Sorted chunkLT l := by
  have hne : l.Pairwise fun a b => a.currentChunk ≠ b.currentChunk :=
    (List.pairwise_map).mp hnd
  exact (hs.and hne).imp fun h => Nat.lt_of_le_of_ne h.1 h.2

/-- With distinct sequence indices, the in-place sort erases any
difference in arrival order. -/
lemma insertionSort_eq_of_perm (l₁ l₂ : List ChunkRecord)
    (hp : l₁.Perm l₂) (hn : (l₁.map fun c => c.currentChunk).Nodup) :
    List.insertionSort chunkLE l₁ = List.insertionSort chunkLE l₂ := by
  have hperm : (List.insertionSort chunkLE l₁).Perm (List.insertionSort chunkLE l₂) :=
    (List.perm_insertionSort chunkLE l₁).trans
      (hp.trans (List.perm_insertionSort chunkLE l₂).symm)
  have hn₁ : ((List.insertionSort chunkLE l₁).map fun c => c.currentChunk).Nodup :=
    (List.Perm.nodup_iff ((List.perm_insertionSort chunkLE l₁).map _)).mpr hn
  have hn₂ : ((List.insertionSort chunkLE l₂).map fun c => c.currentChunk).Nodup :=
    (List.Perm.nodup_iff (hperm.map _)).mp hn₁
  exact List.eq_of_perm_of_sorted hperm
    (sorted_chunkLT_of_nodup _ (List.sorted_insertionSort chunkLE l₁) hn₁)
    (sorted_chunkLT_of_nodup _ (List.sorted_insertionSort chunkLE l₂) hn₂)

/-! ## ICE candidate fold lemma -/

lemma foldl_handleIceCandidate (cs : List Nat) :
    ∀ s : IceState, s.hasRemoteDescription = false →
      cs.foldl handleIceCandidate s =
        { s with pendingIceCandidates := s.pendingIceCandidates ++ cs } := by
  induction cs with
  | nil => intro s _; simp
  | cons c cs ih =>
    intro s h
    rw [List.foldl_cons, handleIceCandidate, if_neg (by simp [h]),
      ih _ (by simp [h])]
    simp

/-! ## Teardown fold lemmas -/

lemma filter_filter_notMem (k : Nat) (ks : List Nat) (l : List Nat) :
    ((l.filter fun x => decide (x ≠ k)).filter fun x => decide (x ∉ ks))
      = l.filter fun x => decide (x ∉ k :: ks) := by
  rw [List.filter_filter]
  refine List.filter_congr fun a _ => ?_
  simp [List.mem_cons, not_or, Bool.and_comm]

lemma foldl_closePeerConnection (keys : List Nat) :
    ∀ s : ServiceState,
      keys.foldl closePeerConnection s =
        { s with
          dataChannels := s.dataChannels.filter fun x => decide (x ∉ keys),
          peerConnections := s.peerConnections.filter fun x => decide (x ∉ keys),
          pendingRemoteDescriptionKeys :=
            s.pendingRemoteDescriptionKeys.filter fun x => decide (x ∉ keys),
          pendingIceCandidateKeys :=
            s.pendingIceCandidateKeys.filter fun x => decide (x ∉ keys) } := by
  induction keys with
  | nil => intro s; simp
  | cons k ks ih =>
    intro s
    rw [List.foldl_cons, ih (closePeerConnection s k)]
    simp only [closePeerConnection, filter_filter_notMem]

lemma filter_notMem_self (l : List Nat) :
    (l.filter fun x => decide (x ∉ l)) = [] :=
  List.filter_eq_nil_iff.mpr fun a ha => by simp [ha]

lemma filter_notMem_of_subset (l keys : List Nat) (h : ∀ x ∈ l, x ∈ keys) :
    (l.filter fun x => decide (x ∉ keys)) = [] :=
  List.filter_eq_nil_iff.mpr fun a ha => by simp [h a ha]

/-! ## Claim C1 -/

/-- C1, counterexample for the empty buffer: `sendFile` emits zero frames
for a 0-byte file, and `reassembleFile` on an empty record list throws
(`No chunks found`) instead of producing the empty buffer, so the
encode–decode–reassemble pipeline does not return the empty file. -/
theorem c1_empty_buffer_counterexample :
    reassembleChunks ((sendFileFrames (List.replicate 36 97) [110] [109]
      []).filterMap decodeChunk) ≠ some [] := by
  decide

/-- C1 (amended to non-empty buffers): for every non-empty byte buffer
`B`, encoding with `sendFile`'s framing, decoding every frame with the
binary branch of `handleDataChannelMessage` (every frame decodes), and
reassembling with `reassembleFile`'s chunk algorithm returns exactly
`B`. -/
theorem c1_roundtrip_nonempty (fid nm mt B : List Nat) (hB : B ≠ [])
    (hn : nm.length < 4294967296) (hm : mt.length < 4294967296)
    (hsz : B.length < 4294967296) :
    (∀ f ∈ sendFileFrames fid nm mt B, decodeChunk f ≠ none) ∧
    reassembleChunks ((sendFileFrames fid nm mt B).filterMap decodeChunk)
      = some B := by
  constructor
  · intro f hf
    rw [sendFileFrames] at hf
    obtain ⟨i, hi, rfl⟩ := List.mem_map.mp hf
    rw [decode_sendFileFrame fid nm mt B i hn hm hsz (List.mem_range.mp hi)]
    simp
  · rw [decode_sendFileFrames fid nm mt B hn hm hsz,
      reassemble_receivedRecords fid nm mt B hB]

theorem c1_roundtrip_nonempty_witness :
    (∀ f ∈ sendFileFrames (List.replicate 36 97) [110] [109] [1, 2, 3],
      decodeChunk f ≠ none) ∧
    reassembleChunks ((sendFileFrames (List.replicate 36 97) [110] [109]
      [1, 2, 3]).filterMap decodeChunk) = some [1, 2, 3] :=
  c1_roundtrip_nonempty (List.replicate 36 97) [110] [109] [1, 2, 3]
    (by decide) (by decide) (by decide) (by decide)

/-! ## Claim C2 -/

/-- C2: `sendFile` produces `⌈S / 65536⌉` frames; every frame before the
last carries exactly `chunkSize` payload bytes; the last carries
`S % chunkSize` bytes (a full chunk when `S` divides evenly); the
payloads tile the buffer with no gaps or overlaps; and the declared
file-size field of every frame decodes to the total size `S`. -/
theorem c2_frame_partition (fid nm mt B : List Nat)
    (hn : nm.length < 4294967296) (hm : mt.length < 4294967296)
    (hsz : B.length < 4294967296) :
    (sendFileFrames fid nm mt B).length = (B.length + 65535) / 65536 ∧
    (∀ i, i + 1 < totalChunksOf B.length →
      (sendFilePayload B i).length = chunkSize) ∧
    (B ≠ [] → (sendFilePayload B (totalChunksOf B.length - 1)).length =
      if B.length % chunkSize = 0 then chunkSize else B.length % chunkSize) ∧
    ((List.range (totalChunksOf B.length)).map (sendFilePayload B)).flatten = B ∧
    (∀ f ∈ sendFileFrames fid nm mt B, ∃ r, decodeChunk f = some r ∧
      r.size = B.length ∧ r.totalChunks = totalChunksOf B.length) := by
  refine ⟨?_, ?_, ?_, ?_, ?_⟩
  · rw [sendFileFrames, List.length_map, List.length_range, totalChunksOf_eq]
  · intro i hi
    rw [totalChunksOf_eq] at hi
    rw [length_sendFilePayload, chunkSize_eq]
    omega
  · intro hBne
    have hpos : 0 < B.length := List.length_pos.mpr hBne
    rw [length_sendFilePayload, chunkSize_eq, totalChunksOf_eq]
    by_cases h0 : B.length % 65536 = 0
    · rw [if_pos h0]
      omega
    · rw [if_neg h0]
      omega
  · rw [show sendFilePayload B
        = (fun i => (B.drop (i * chunkSize)).take chunkSize)
      from funext fun i => sendFilePayload_eq B i]
    exact flatten_drop_take_chunks _ B (by rw [totalChunksOf_eq, chunkSize_eq]; omega)
  · intro f hf
    rw [sendFileFrames] at hf
    obtain ⟨i, hi, rfl⟩ := List.mem_map.mp hf
    exact ⟨receivedRecord fid nm mt B i,
      decode_sendFileFrame fid nm mt B i hn hm hsz (List.mem_range.mp hi),
      rfl, rfl⟩

theorem c2_frame_partition_witness :
    (sendFileFrames [] [110] [109] (List.replicate 150000 1)).length
      = ((List.replicate 150000 (1 : Nat)).length + 65535) / 65536 ∧
    (∀ i, i + 1 < totalChunksOf (List.replicate 150000 (1 : Nat)).length →
      (sendFilePayload (List.replicate 150000 1) i).length = chunkSize) ∧
    (List.replicate 150000 (1 : Nat) ≠ [] →
      (sendFilePayload (List.replicate 150000 1)
        (totalChunksOf (List.replicate 150000 (1 : Nat)).length - 1)).length =
      if (List.replicate 150000 (1 : Nat)).length % chunkSize = 0 then chunkSize
      else (List.replicate 150000 (1 : Nat)).length % chunkSize) ∧
    ((List.range (totalChunksOf (List.replicate 150000 (1 : Nat)).length)).map
      (sendFilePayload (List.replicate 150000 1))).flatten
      = List.replicate 150000 1 ∧
    (∀ f ∈ sendFileFrames [] [110] [109] (List.replicate 150000 1),
      ∃ r, decodeChunk f = some r ∧
        r.size = (List.replicate 150000 (1 : Nat)).length ∧
        r.totalChunks = totalChunksOf (List.replicate 150000 (1 : Nat)).length) :=
  c2_frame_partition [] [110] [109] (List.replicate 150000 1)
    (by decide) (by decide) (by rw [List.length_replicate]; norm_num)

/-! ## Claim C3 -/

/-- C3: a binary frame shorter than the 28-byte minimum header, or whose
declared `fileNameLength` or `mimeTypeLength` pushes a later read past
the buffer end, fails to decode and stores no chunk record; no read goes
out of bounds (all reads are clamped slices plus bounds-checked
`DataView` accesses). -/
theorem c3_malformed_frame_rejected (data : List Nat) (st : Store)
    (h : data.length < 28 ∨
      (∃ n, readU32 (jsSlice data 0 28) 24 = some n ∧
        data.length < 28 + n + 4) ∨
      (∃ n m, readU32 (jsSlice data 0 28) 24 = some n ∧
        readU32 (jsSlice data (28 + n) (28 + n + 4)) 0 = some m ∧
        data.length < 28 + n + 4 + m + 8)) :
    decodeChunk data = none ∧ handleBinaryMessage st data = (st, none) := by
  have hd : decodeChunk data = none := by
    rcases h with h | ⟨n, hn, hlen⟩ | ⟨n, m, hn, hm, hlen⟩
    · have h24 : readU32 (jsSlice data 0 28) 24 = none := by
        rw [jsSlice_zero, readU32_take _ _ _ (by omega)]
        exact readU32_none _ _ (by simp only [List.length_drop]; omega)
      cases e1 : readU32 (jsSlice data 0 28) 16 <;>
        cases e2 : readU32 (jsSlice data 0 28) 20 <;>
          simp [decodeChunk, e1, e2, h24]
    · have hM : readU32 (jsSlice data (28 + n) (28 + n + 4)) 0 = none := by
        rw [readU32_jsSlice]
        exact readU32_none _ _ (by simp only [List.length_drop]; omega)
      cases e1 : readU32 (jsSlice data 0 28) 16 <;>
        cases e2 : readU32 (jsSlice data 0 28) 20 <;>
          simp [decodeChunk, e1, e2, hn, hM]
    · have hS : readU64 (jsSlice data (28 + n + 4 + m) (28 + n + 4 + m + 8)) 0
          = none := by
        rw [readU64_jsSlice]
        exact readU64_none _ _ (by simp only [List.length_drop]; omega)
      cases e1 : readU32 (jsSlice data 0 28) 16 <;>
        cases e2 : readU32 (jsSlice data 0 28) 20 <;>
          simp [decodeChunk, e1, e2, hn, hm, hS]
  exact ⟨hd, by simp [handleBinaryMessage, hd]⟩

theorem c3_malformed_frame_rejected_witness :
    decodeChunk [1, 2, 3] = none ∧
    handleBinaryMessage ([] : Store) [1, 2, 3] = (([] : Store), none) :=
  c3_malformed_frame_rejected [1, 2, 3] [] (Or.inl (by decide))

/-! ## Claim C4 -/

/-- C4: `reassembleFile` sorts the buffered records by `currentChunk`
before concatenation, so for records with distinct sequence indices the
reassembled output is invariant under any permutation of arrival order
(in particular, reverse order equals forward order). -/
theorem c4_reassembly_order_invariant (recs recs' : List ChunkRecord)
    (hp : recs.Perm recs')
    (hn : (recs.map fun c => c.currentChunk).Nodup) :
    reassembleChunks recs = reassembleChunks recs' := by
  have hsort := insertionSort_eq_of_perm recs recs' hp hn
  cases recs with
  | nil =>
    cases recs' with
    | nil => rfl
    | cons b bs => exact absurd hp.length_eq (by simp)
  | cons a as =>
    cases recs' with
    | nil => exact absurd hp.length_eq (by simp)
    | cons b bs =>
      simp only [reassembleChunks]
      rw [hsort]

theorem c4_reassembly_order_invariant_witness :
    reassembleChunks
        [⟨[7], [], [], 4, 2, 1, [3, 4]⟩, ⟨[7], [], [], 4, 2, 0, [1, 2]⟩]
      = reassembleChunks
        [⟨[7], [], [], 4, 2, 0, [1, 2]⟩, ⟨[7], [], [], 4, 2, 1, [3, 4]⟩] :=
  c4_reassembly_order_invariant _ _ (by decide) (by decide)

/-! ## Claim C5 -/

/-- C5, counterexample: a `file-end` that arrives while only 1 of the
declared 2 chunks is buffered does not fail or defer — `reassembleFile`
has no completeness check, so it emits a zero-padded file of the declared
size right away. -/
theorem c5_incomplete_file_end_counterexample :
    (lookupStore [([7], [⟨[7], [], [], 4, 2, 0, [9, 9]⟩])] [7]).map List.length
      = some 1 ∧
    (⟨[7], [], [], 4, 2, 0, [9, 9]⟩ : ChunkRecord).totalChunks = 2 ∧
    (handleFileEnd [([7], [⟨[7], [], [], 4, 2, 0, [9, 9]⟩])] [7]).2
      = some [9, 9, 0, 0] := by
  decide

/-- C5 (amended): `reassembleFile` never checks `totalChunks`, so an
early `file-end` with a non-empty buffer emits a zero-padded file.  What
does hold: a `file-end` for a fileId whose buffer is absent or empty —
which is every `file-end` in the integrated flow, since chunks accumulate
under the 16-byte truncated id while `file-start`/`file-end` carry the
full fileId — produces no file and leaves the store unchanged; and once
a trigger has reassembled and deleted a buffer, a second trigger for the
same id is a harmless no-op, so at most one file is produced per key. -/
theorem c5_file_end_once (st : Store) (fid : Key) :
    ((lookupStore st fid = none ∨ lookupStore st fid = some []) →
      handleFileEnd st fid = (st, none)) ∧
    (∀ st' f, handleFileEnd st fid = (st', some f) →
      handleFileEnd st' fid = (st', none)) := by
  constructor
  · intro h
    rcases h with h | h <;>
      simp [handleFileEnd, reassembleFile, h, reassembleChunks]
  · intro st' f h
    cases hl : lookupStore st fid with
    | none =>
      simp only [handleFileEnd, reassembleFile, hl] at h
      simp at h
    | some chunks =>
      cases hr : reassembleChunks chunks with
      | none =>
        simp only [handleFileEnd, reassembleFile, hl, hr] at h
        simp at h
      | some content =>
        simp only [handleFileEnd, reassembleFile, hl, hr, Prod.mk.injEq,
          Option.some.injEq] at h
        obtain ⟨h1, -⟩ := h
        subst h1
        simp [handleFileEnd, reassembleFile, lookupStore_eraseStore]

theorem c5_file_end_once_witness :
    handleFileEnd [([3], ([] : List ChunkRecord))] [3]
      = ([([3], ([] : List ChunkRecord))], none) ∧
    handleFileEnd ([] : Store) [7] = (([] : Store), none) :=
  ⟨(c5_file_end_once [([3], [])] [3]).1 (Or.inr rfl),
   (c5_file_end_once [([7], [⟨[7], [], [], 4, 2, 0, [9, 9]⟩])] [7]).2
     [] [9, 9, 0, 0] (by decide)⟩

/-! ## Claim C6 -/

lemma applyPendingIceCandidates_spec (t : IceState) :
    (applyPendingIceCandidates t).appliedIceCandidates
      = t.appliedIceCandidates ++ t.pendingIceCandidates ∧
    (applyPendingIceCandidates t).pendingIceCandidates = [] := by
  rw [applyPendingIceCandidates]
  by_cases he : t.pendingIceCandidates.isEmpty
  · rw [if_pos he]
    have h0 : t.pendingIceCandidates = [] := List.isEmpty_iff.mp he
    simp [h0]
  · rw [if_neg he]
    exact ⟨rfl, rfl⟩

/-- C6: while no remote description is applied, every received candidate
is appended to the peer's queue (none is applied), and a successful
remote-description application flushes the whole queue into
`addIceCandidate` calls in original receipt order and clears it. -/
theorem c6_ice_candidate_buffering (s : IceState) (cs : List Nat)
    (h : s.hasRemoteDescription = false) :
    (cs.foldl handleIceCandidate s).appliedIceCandidates
      = s.appliedIceCandidates ∧
    (cs.foldl handleIceCandidate s).pendingIceCandidates
      = s.pendingIceCandidates ++ cs ∧
    (applyRemoteDescription (cs.foldl handleIceCandidate s)).appliedIceCandidates
      = s.appliedIceCandidates ++ (s.pendingIceCandidates ++ cs) ∧
    (applyRemoteDescription
      (cs.foldl handleIceCandidate s)).pendingIceCandidates = [] := by
  rw [foldl_handleIceCandidate cs s h]
  refine ⟨rfl, rfl, ?_, ?_⟩
  · rw [applyRemoteDescription, (applyPendingIceCandidates_spec _).1]
  · rw [applyRemoteDescription, (applyPendingIceCandidates_spec _).2]

theorem c6_ice_candidate_buffering_witness :
    (([10, 11].foldl handleIceCandidate
      ⟨false, [5], []⟩).appliedIceCandidates = [] ∧
    ([10, 11].foldl handleIceCandidate
      ⟨false, [5], []⟩).pendingIceCandidates = [5] ++ [10, 11] ∧
    (applyRemoteDescription ([10, 11].foldl handleIceCandidate
      ⟨false, [5], []⟩)).appliedIceCandidates = [] ++ ([5] ++ [10, 11]) ∧
    (applyRemoteDescription ([10, 11].foldl handleIceCandidate
      ⟨false, [5], []⟩)).pendingIceCandidates = []) :=
  c6_ice_candidate_buffering ⟨false, [5], []⟩ [10, 11] rfl

/-! ## Claim C7 -/

/-- C7: an offer received outside the `stable` state (and an answer
received outside `have-local-offer`) is stored — not dropped — as the
peer's single pending remote description, a newer arrival overwriting an
older unconsumed one; when `applyPendingRemoteDescription` later runs
(triggered on return to `stable`), the queued description is applied and
cleared, and a queued offer additionally produces a relayed answer. -/
theorem c7_pending_description_queue (s : DescState) (v₁ v₂ : Nat) :
    (s.signalingState ≠ .stable →
      (handleOffer s v₁).pendingRemoteDescription = some ⟨.offer, v₁⟩ ∧
      (handleOffer (handleOffer s v₁) v₂).pendingRemoteDescription
        = some ⟨.offer, v₂⟩) ∧
    (s.signalingState ≠ .haveLocalOffer →
      (handleAnswer s v₁).pendingRemoteDescription = some ⟨.answer, v₁⟩) ∧
    (s.pendingRemoteDescription = some ⟨.offer, v₁⟩ →
      applyPendingRemoteDescription s =
        { s with
          appliedRemoteDescriptions :=
            s.appliedRemoteDescriptions ++ [⟨.offer, v₁⟩],
          pendingRemoteDescription := none,
          sentAnswers := s.sentAnswers + 1,
          signalingState := .stable }) ∧
    (s.pendingRemoteDescription = some ⟨.answer, v₁⟩ →
      applyPendingRemoteDescription s =
        { s with
          appliedRemoteDescriptions :=
            s.appliedRemoteDescriptions ++ [⟨.answer, v₁⟩],
          pendingRemoteDescription := none }) := by
  refine ⟨?_, ?_, ?_, ?_⟩
  · intro hne
    refine ⟨by rw [handleOffer, if_neg hne], ?_⟩
    simp [handleOffer, hne]
  · intro hne
    rw [handleAnswer, if_neg hne]
  · intro hp
    rw [applyPendingRemoteDescription, hp]
  · intro hp
    rw [applyPendingRemoteDescription, hp]

theorem c7_pending_description_queue_witness :
    ((handleOffer ⟨.haveRemoteOffer, none, [], 0⟩ 1).pendingRemoteDescription
        = some ⟨.offer, 1⟩ ∧
      (handleOffer (handleOffer ⟨.haveRemoteOffer, none, [], 0⟩ 1)
        2).pendingRemoteDescription = some ⟨.offer, 2⟩) ∧
    (handleAnswer ⟨.haveRemoteOffer, none, [], 0⟩ 1).pendingRemoteDescription
      = some ⟨.answer, 1⟩ ∧
    applyPendingRemoteDescription ⟨.haveLocalOffer, some ⟨.offer, 1⟩, [], 0⟩
      = ⟨.stable, none, [⟨.offer, 1⟩], 1⟩ ∧
    applyPendingRemoteDescription ⟨.haveRemoteOffer, some ⟨.answer, 1⟩, [], 0⟩
      = ⟨.haveRemoteOffer, none, [⟨.answer, 1⟩], 0⟩ :=
  ⟨(c7_pending_description_queue ⟨.haveRemoteOffer, none, [], 0⟩ 1 2).1
      (by decide),
   (c7_pending_description_queue ⟨.haveRemoteOffer, none, [], 0⟩ 1 2).2.1
      (by decide),
   ((c7_pending_description_queue ⟨.haveLocalOffer, some ⟨.offer, 1⟩, [], 0⟩
      1 2).2.2.1 rfl).trans (by decide),
   ((c7_pending_description_queue ⟨.haveRemoteOffer, some ⟨.answer, 1⟩, [], 0⟩
      1 2).2.2.2 rfl).trans (by decide)⟩

/-! ## Claim C8 -/

/-- C8, counterexample: when the signaling socket closes with peers 1 and
2 connected, both sessions are fully torn down but `onPeerDisconnected`
never fires — `closePeerConnection` invokes no callback and the data
channel's `onclose` handler only logs — refuting "fires exactly once for
each torn-down peer". -/
theorem c8_no_disconnect_callback_counterexample :
    (socketOnClose
      ⟨true, some 1, some 0, [1, 2], [1, 2], [], [], [], []⟩).peerConnections
        = [] ∧
    (socketOnClose
      ⟨true, some 1, some 0, [1, 2], [1, 2], [], [], [], []⟩).dataChannels
        = [] ∧
    ¬ ((socketOnClose
        ⟨true, some 1, some 0, [1, 2], [1, 2], [], [], [], []⟩).disconnectedCallbacks.count 1 = 1 ∧
      (socketOnClose
        ⟨true, some 1, some 0, [1, 2], [1, 2], [], [], [], []⟩).disconnectedCallbacks.count 2 = 1) := by
  decide

/-- C8 (amended): on signaling-channel close every active peer session is
torn down — connection and data channel closed and removed — but no
`onPeerDisconnected` callback fires for any of them (the callback fires
only on an explicit `peer-left` signaling message). -/
theorem c8_onclose_teardown (s : ServiceState)
    (h : ∀ x ∈ s.dataChannels, x ∈ s.peerConnections) :
    (socketOnClose s).peerConnections = [] ∧
    (socketOnClose s).dataChannels = [] ∧
    (socketOnClose s).disconnectedCallbacks = s.disconnectedCallbacks := by
  rw [socketOnClose, foldl_closePeerConnection]
  exact ⟨filter_notMem_self _, filter_notMem_of_subset _ _ h, rfl⟩

theorem c8_onclose_teardown_witness :
    (socketOnClose ⟨true, none, none, [4], [4], [9], [], [], [2]⟩).peerConnections
      = [] ∧
    (socketOnClose ⟨true, none, none, [4], [4], [9], [], [], [2]⟩).dataChannels
      = [] ∧
    (socketOnClose
      ⟨true, none, none, [4], [4], [9], [], [], [2]⟩).disconnectedCallbacks
      = (⟨true, none, none, [4], [4], [9], [], [], [2]⟩ :
          ServiceState).disconnectedCallbacks :=
  c8_onclose_teardown ⟨true, none, none, [4], [4], [9], [], [], [2]⟩
    (by decide)

/-! ## Claim C9 -/

/-- C9, counterexample: `disconnect()` closes the peer sessions and the
socket and resets the signaling queues, but never clears
`this.fileChunks` — the buffered chunk record for transfer `[7]` is
still present after `disconnect` returns, so per-transfer state outlives
the call. -/
theorem c9_fileChunks_survive_counterexample :
    (disconnect ⟨true, some 1, some 0, [1], [1], [], [],
        [([7], [⟨[7], [], [], 1, 1, 0, [5]⟩])], []⟩).fileChunks
      = [([7], [⟨[7], [], [], 1, 1, 0, [5]⟩])] ∧
    ([([7], [⟨[7], [], [], 1, 1, 0, [5]⟩])] : Store) ≠ [] := by
  decide

/-- C9 (amended): after `disconnect()` every peer session is torn down,
the socket is closed and nulled, `roomId`/`peerId` are reset and the
pending description/candidate queues are emptied — but the buffered
chunk records in `fileChunks` are NOT discarded; they survive
unchanged. -/
theorem c9_disconnect_teardown (s : ServiceState)
    (h : ∀ x ∈ s.dataChannels, x ∈ s.peerConnections) :
    (disconnect s).peerConnections = [] ∧
    (disconnect s).dataChannels = [] ∧
    (disconnect s).socket = false ∧
    (disconnect s).roomId = none ∧
    (disconnect s).peerId = none ∧
    (disconnect s).pendingRemoteDescriptionKeys = [] ∧
    (disconnect s).pendingIceCandidateKeys = [] ∧
    (disconnect s).fileChunks = s.fileChunks := by
  simp only [disconnect, foldl_closePeerConnection]
  exact ⟨filter_notMem_self _, filter_notMem_of_subset _ _ h,
    trivial, trivial, trivial, trivial, trivial, trivial⟩

theorem c9_disconnect_teardown_witness :
    (disconnect ⟨true, some 1, some 0, [1], [1], [1], [1],
        [([7], [])], []⟩).peerConnections = [] ∧
    (disconnect ⟨true, some 1, some 0, [1], [1], [1], [1],
        [([7], [])], []⟩).dataChannels = [] ∧
    (disconnect ⟨true, some 1, some 0, [1], [1], [1], [1],
        [([7], [])], []⟩).socket = false ∧
    (disconnect ⟨true, some 1, some 0, [1], [1], [1], [1],
        [([7], [])], []⟩).roomId = none ∧
    (disconnect ⟨true, some 1, some 0, [1], [1], [1], [1],
        [([7], [])], []⟩).peerId = none ∧
    (disconnect ⟨true, some 1, some 0, [1], [1], [1], [1],
        [([7], [])], []⟩).pendingRemoteDescriptionKeys = [] ∧
    (disconnect ⟨true, some 1, some 0, [1], [1], [1], [1],
        [([7], [])], []⟩).pendingIceCandidateKeys = [] ∧
    (disconnect ⟨true, some 1, some 0, [1], [1], [1], [1],
        [([7], [])], []⟩).fileChunks
      = (⟨true, some 1, some 0, [1], [1], [1], [1],
          [([7], [])], []⟩ : ServiceState).fileChunks :=
  c9_disconnect_teardown
    ⟨true, some 1, some 0, [1], [1], [1], [1], [([7], [])], []⟩ (by decide)

/-! ## Claim C10 -/

lemma lookupStore_insertStore (st : Store) (k : Key) (v : List ChunkRecord) :
    lookupStore (insertStore st k v) k = some v := by
  induction st with
  | nil => simp [insertStore, lookupStore]
  | cons a rest ih =>
    rw [insertStore]
    by_cases h : a.1 = k
    · rw [if_pos h, lookupStore, if_pos rfl]
    · rw [if_neg h, lookupStore, if_neg h]
      exact ih

/-- C10: `sendFile` writes only the first 16 bytes of the 36-character
UUID into each frame (NUL-padding applies only to shorter ids), so the
transfer id the receiver decodes from any frame is the 16-character
truncation — never equal to the full fileId carried by the `file-start`
and `file-end` control messages — and chunk records therefore accumulate
under a different store key than the entry `file-start` allocates and
the key `file-end` looks up. -/
theorem c10_transferid_truncation (fid nm mt B : List Nat) (st : Store)
    (h36 : fid.length = 36)
    (hn : nm.length < 4294967296) (hm : mt.length < 4294967296)
    (hsz : B.length < 4294967296) :
    fileIdBytes fid = fid.take 16 ∧
    fid.take 16 ≠ fid ∧
    (∀ f ∈ sendFileFrames fid nm mt B, ∃ r, decodeChunk f = some r ∧
      r.id = fid.take 16) ∧
    lookupStore (handleFileStart st fid) fid = some [] := by
  have h1 : fileIdBytes fid = fid.take 16 := by
    rw [fileIdBytes, h36]
    norm_num
  refine ⟨h1, ?_, ?_, ?_⟩
  · intro he
    have hlen := congrArg List.length he
    rw [List.length_take, h36] at hlen
    norm_num at hlen
  · intro f hf
    rw [sendFileFrames] at hf
    obtain ⟨i, hi, rfl⟩ := List.mem_map.mp hf
    exact ⟨receivedRecord fid nm mt B i,
      decode_sendFileFrame fid nm mt B i hn hm hsz (List.mem_range.mp hi), h1⟩
  · rw [handleFileStart, lookupStore_insertStore]

theorem c10_transferid_truncation_witness :
    fileIdBytes (List.replicate 36 97) = (List.replicate 36 97).take 16 ∧
    (List.replicate 36 97).take 16 ≠ List.replicate 36 97 ∧
    (∀ f ∈ sendFileFrames (List.replicate 36 97) [] [] [1],
      ∃ r, decodeChunk f = some r ∧
        r.id = (List.replicate 36 97).take 16) ∧
    lookupStore (handleFileStart [] (List.replicate 36 97))
      (List.replicate 36 97) = some [] :=
  c10_transferid_truncation (List.replicate 36 97) [] [] [1] []
    (by decide) (by decide) (by decide) (by decide)

end AirDrop
